import Mathlib

/-!
Verification of the SPD decomposition trainer (`spd/run_spd.py`,
`spd/models/components.py`) against its specification.

Tensors are embedded as (nested) lists of rationals; torch operations
(einsum contractions, broadcasting adds, boolean-mask multiplication) become
explicit list computations.  Loss terms that involve real fractional powers
are embedded over the reals.  The top-k mask selector (`calc_topk_mask` in
`spd/utils.py`) is not part of the provided sources, so it is modelled from
the specification text; everything else is translated from the source files.
-/

/-- A 2-d tensor of rationals (rows of entries). -/
abbrev Mat := List (List ℚ)

/-- Promotion of a boolean mask entry to an arithmetic factor, as torch does
when a bool tensor is multiplied into a float tensor. -/
def boolToQ (b : Bool) : ℚ := if b then 1 else 0

/-- Dot product of two vectors (zipped elementwise product, summed). -/
def dotQ (a b : List ℚ) : ℚ := ((a.zip b).map (fun p => p.1 * p.2)).sum

/-- Column j of a (rectangular) matrix. -/
def colQ (M : Mat) (j : ℕ) : List ℚ := M.map (fun row => row.getD j 0)

/-- Matrix product, einsum "batch dim1, dim1 dim2 -> batch dim2". -/
def matMulQ (x A : Mat) : Mat :=
  x.map (fun r => (List.range (A.headD []).length).map (fun j => dotQ r (colQ A j)))

/-- Vector-matrix product, einsum "dim1, dim1 dim2 -> dim2". -/
def vecMatQ (v : List ℚ) (M : Mat) : List ℚ :=
  (List.range (M.headD []).length).map (fun j => dotQ v (colQ M j))

/-- Sum over the leading axis of a list of vectors, einsum "k dim2 -> dim2":
entry j of the result is the sum of the j-th entries. -/
def colSum (d : ℕ) (vs : List (List ℚ)) : List ℚ :=
  (List.range d).map (fun j => (vs.map (fun v => v.getD j 0)).sum)

/-- Sum of the squares of every entry of a matrix. -/
def sumSq (m : Mat) : ℚ := (m.map (fun r => (r.map (fun z => z ^ 2)).sum)).sum

/-- Summed squared elementwise difference of two matrices of equal shape. -/
def sumSqDiff (a b : Mat) : ℚ :=
  ((a.zip b).map (fun p => ((p.1.zip p.2).map (fun q => (q.1 - q.2) ^ 2)).sum)).sum

/-- Number of entries of a matrix, as a rational (for normalisations). -/
def numelQ (m : Mat) : ℚ := ((m.map List.length).sum : ℕ)

/-- Scale every entry of a matrix by a constant. -/
def scaleMat (c : ℚ) (m : Mat) : Mat := m.map (fun r => r.map (fun z => c * z))

/-- Elementwise sum of two matrices of equal shape. -/
def addMat (a b : Mat) : Mat := List.zipWith (fun r s => List.zipWith (· + ·) r s) a b

/-- The all-zero matrix of a given shape. -/
def zeroMat (r c : ℕ) : Mat := List.replicate r (List.replicate c 0)

/-- The all-ones matrix of a given shape. -/
def onesMat (r c : ℕ) : Mat := List.replicate r (List.replicate c 1)

/-- Masked sum over the subnetwork axis, einsum
"k d_in d_out, k -> d_in d_out" with a boolean mask cast to the value dtype:
the mask row selects which subnetwork matrices enter the sum. -/
def maskedSum (W : List Mat) (mrow : List Bool) : Mat :=
  (W.zip mrow).foldr (fun p acc => addMat (scaleMat (boolToQ p.2) p.1) acc)
    (zeroMat (W.headD []).length ((W.headD []).headD []).length)

/-- Full-rank subnetwork matrices built from rank-1 factors, entrywise
W[k][i][j] = A[i][k] * B[k][j] (the test fixtures describe subnetworks by
their A and B factor matrices). -/
def ABtoSubnets (A B : Mat) : List Mat :=
  (List.range B.length).map (fun kk =>
    (List.range A.length).map (fun i =>
      (B.getD kk []).map (fun bj => ((A.getD i []).getD kk 0) * bj)))

/-- An all-True boolean mask of shape batch x k. -/
def allTrueMask (b k : ℕ) : List (List Bool) := List.replicate b (List.replicate k true)

/-- An all-False boolean mask of shape batch x k. -/
def allFalseMask (b k : ℕ) : List (List Bool) := List.replicate b (List.replicate k false)

/-- Number of True entries of a boolean mask row. -/
def countTrue (m : List Bool) : ℕ := m.count true

/-- Descending-score ordering on (index, score) pairs; equal scores are
broken by index, giving the deterministic tie-break the spec asks to
document ("unspecified but deterministic given fixed input"). -/
def topkRel (a b : ℕ × ℚ) : Prop := b.2 < a.2 ∨ (b.2 = a.2 ∧ a.1 ≤ b.1)

instance : DecidableRel topkRel := fun a b => by unfold topkRel; infer_instance

/-- Indices of a score vector listed in decreasing order of score. -/
def topkOrder (l : List ℚ) : List ℕ :=
  (List.insertionSort topkRel ((List.range l.length).zip l)).map Prod.fst

/-- Boolean mask over a flat score vector marking its n largest entries. -/
def flatTopkMask (l : List ℚ) (n : ℕ) : List Bool :=
  (List.range l.length).map (fun i => decide (i ∈ (topkOrder l).take n))

/-- Split a flat boolean vector back into rows of the given lengths
(the inverse of flattening a batch of rows). -/
def splitShape : List ℕ → List Bool → List (List Bool)
  | [], _ => []
  | c :: cs, m => m.take c :: splitShape cs (m.drop c)

/-- Rounding to the nearest natural number (round half up). -/
def roundNat (q : ℚ) : ℕ := (round q).toNat

/-- Modelled from the spec: `calc_topk_mask` (imported by `run_spd.py` from
`spd.utils` but absent from the provided sources).  Spec 4.3: with
`batch_topk=True` the scores are flattened across the batch and the top
`round(topk * batch_size)` entries globally are marked True; with
`batch_topk=False` each sample independently selects its top `topk` entries
by score magnitude.  The result has the same shape as the scores. -/
def calc_topk_mask (attributions : List (List ℚ)) (topk : ℚ) (batch_topk : Bool) :
    List (List Bool) :=
  if batch_topk then
    splitShape (attributions.map List.length)
      (flatTopkMask attributions.flatten (roundNat (topk * attributions.length)))
  else
    attributions.map (fun row => flatTopkMask row (roundNat topk))

/-- Modelled from the spec: with an `n_instances` dimension the batch pooling
of `calc_topk_mask` is applied per instance (instance-major layout here). -/
def calc_topk_mask_inst (attributionsI : List (List (List ℚ))) (topk : ℚ)
    (batch_topk : Bool) : List (List (List Bool)) :=
  attributionsI.map (fun inst => calc_topk_mask inst topk batch_topk)

/-- The distillation branch of `optimize` (run_spd.py:576-598): drop the last
subnetwork index from the attributions, compute the top-k mask over the
remaining k-1 subnetworks, then append an always-True column for the
designated catch-all subnetwork. -/
def distil_topk_mask (attributions : List (List ℚ)) (topk : ℚ) (batch_topk : Bool) :
    List (List Bool) :=
  (calc_topk_mask (attributions.map (fun r => r.dropLast)) topk batch_topk).map
    (fun r => r ++ [true])

/-- ParamComponents.forward (components.py:75-84): inner_acts = x A, multiply
by the mask when given, output = inner_acts B.  Returns (out, inner_acts). -/
def ParamComponents.forward (A B : Mat) (x : Mat)
    (topk_mask : Option (List (List Bool))) : Mat × Mat :=
  let inner_acts := matMulQ x A
  let inner_acts :=
    match topk_mask with
    | none => inner_acts
    | some mask =>
        List.zipWith (fun iv mv => List.zipWith (fun v mb => v * boolToQ mb) iv mv)
          inner_acts mask
  (matMulQ inner_acts B, inner_acts)

/-- ParamComponentsFullRank.forward (components.py:103-117): inner_acts =
einsum "batch dim1, k dim1 dim2 -> batch k dim2"; the (per-subnetwork) bias
is added to inner_acts BEFORE the mask multiplies; output sums over k.
Returns (out, inner_acts). -/
def ParamComponentsFullRank.forward (subnetwork_params : List Mat) (bias : Option Mat)
    (d_out : ℕ) (x : Mat) (topk_mask : Option (List (List Bool))) :
    Mat × List (List (List ℚ)) :=
  let inner_acts := x.map (fun xb => subnetwork_params.map (fun Wk => vecMatQ xb Wk))
  let inner_acts :=
    match bias with
    | none => inner_acts
    | some bs => inner_acts.map (fun row => List.zipWith (fun v bv => List.zipWith (· + ·) v bv) row bs)
  let inner_acts :=
    match topk_mask with
    | none => inner_acts
    | some mask =>
        List.zipWith (fun row mrow => List.zipWith (fun v mb => v.map (fun z => z * boolToQ mb)) row mrow)
          inner_acts mask
  (inner_acts.map (fun row => colSum d_out row), inner_acts)

/-- ReLU on a rational. -/
def reluQ (z : ℚ) : ℚ := max z 0

/-- MLPComponents.forward (components.py:203-231): first rank-1 layer, then
the separate bias1 is added AFTER the masked linear pass, ReLU, second
rank-1 layer.  Returns (out, layer_acts, inner_acts). -/
def MLPComponents.forward (A1 B1 A2 B2 : Mat) (bias1 : List ℚ) (x : Mat)
    (topk_mask : Option (List (List Bool))) : Mat × List Mat × List Mat :=
  let p1 := ParamComponents.forward A1 B1 x topk_mask
  let h := p1.1.map (fun r => List.zipWith (· + ·) r bias1)
  let hr := h.map (fun r => r.map reluQ)
  let p2 := ParamComponents.forward A2 B2 hr topk_mask
  (p2.1, [h, p2.1], [p1.2, p2.2])

/-- calc_param_match_loss (run_spd.py:363-406).  The dict lookups driven by
`param_map` are embedded as the list of matched (pretrained, subnetwork)
matrix pairs in iteration order; the loop accumulates the summed squared
differences and divides once by n_params. -/
def calc_param_match_loss (params : List (Mat × Mat)) (n_params : ℚ) : ℚ :=
  (params.map (fun p => sumSqDiff p.2 p.1)).sum / n_params

/-- Stated from the spec's words, for comparison with the source: the
arithmetic mean over the matrices of each matrix's own mean squared
elementwise difference. -/
def param_match_mean_of_msds (params : List (Mat × Mat)) : ℚ :=
  ((params.map (fun p => sumSqDiff p.2 p.1 / numelQ p.1)).sum) / (params.length : ℚ)

/-- calc_topk_l2_full_rank (run_spd.py:259-310), branch with no
n_instances dimension: topk_params[b] = einsum "k ... d_out, batch k ->
batch ... d_out", squared, summed over every dim, divided by n_params and
the batch size. -/
def calc_topk_l2_full_rank (subnet_param_vals : List (List Mat))
    (topk_mask : List (List Bool)) (n_params : ℚ) : ℚ :=
  ((subnet_param_vals.map (fun W =>
      (topk_mask.map (fun mrow => sumSq (maskedSum W mrow))).sum)).sum)
    / n_params / (topk_mask.length : ℚ)

/-- calc_topk_l2_full_rank (run_spd.py:259-310), branch with an n_instances
dimension: the sum runs over the batch and matrix dims but not the instance
dim, giving one value per instance. -/
def calc_topk_l2_full_rank_inst (subnet_param_vals : List (List (List Mat)))
    (topk_mask : List (List (List Bool))) (n_params : ℚ) : List ℚ :=
  (List.range (topk_mask.headD []).length).map (fun j =>
    ((subnet_param_vals.map (fun W =>
        (topk_mask.map (fun mb => sumSq (maskedSum (W.getD j []) (mb.getD j [])))).sum)).sum)
      / n_params / (topk_mask.length : ℚ))

/-- calc_lp_sparsity_loss (run_spd.py:409-431), per (batch, k) entry: the
attribution is divided by d_model_out, then
(attributions.abs() + 1e-16) ** (step_pnorm * 0.5). -/
noncomputable def calc_lp_sparsity_loss (attribution d_model_out step_pnorm : ℝ) : ℝ :=
  (|attribution / d_model_out| + 1e-16) ^ (step_pnorm * 0.5)

/-- calc_schatten_loss (run_spd.py:313-360), per (batch, k, m) entry of the
masked Gram product S_AB_topk: (S_AB_topk + 1e-16) ** (0.5 * p). -/
noncomputable def calc_schatten_loss_term (S_AB_topk p : ℝ) : ℝ :=
  (S_AB_topk + 1e-16) ^ (0.5 * p)

/-- SPD model flavour (run_spd.py Config.spd_type). -/
inductive SpdType
  | full_rank
  | rank_penalty
deriving DecidableEq

/-- Learning-rate schedule choice (run_spd.py Config.lr_schedule). -/
inductive LrSchedule
  | linear
  | constant
  | cosine
  | exponential
deriving DecidableEq

/-- Task configuration variants, keeping only the fields that
Config.validate_model inspects. -/
inductive TaskConfig
  | tms
  | piecewise (n_layers : ℕ) (handcoded_AB : Bool)
  | residual_mlp
deriving DecidableEq

/-- Whether the task config is the piecewise variant. -/
def TaskConfig.isPiecewise : TaskConfig → Bool
  | .piecewise _ _ => true
  | _ => false

/-- Whether the task config is the residual-mlp variant. -/
def TaskConfig.isResidualMLP : TaskConfig → Bool
  | .residual_mlp => true
  | _ => false

/-- run_spd.py Config, restricted to the fields read by validate_model.
Field-level pydantic constraints (positivity of coefficients etc.) are
assumed; floats become rationals. -/
structure Config where
  spd_type : SpdType := .rank_penalty
  topk : Option ℚ := none
  batch_topk : Bool := true
  exact_topk : Bool := false
  batch_size : ℕ
  lr : ℚ
  out_recon_coeff : Option ℚ := none
  act_recon_coeff : Option ℚ := none
  param_match_coeff : Option ℚ := some 1
  topk_recon_coeff : Option ℚ := none
  topk_l2_coeff : Option ℚ := none
  schatten_coeff : Option ℚ := none
  schatten_pnorm : Option ℚ := none
  lp_sparsity_coeff : Option ℚ := none
  distil_from_target : Bool := false
  pnorm : Option ℚ := none
  m : Option ℕ := none
  lr_schedule : LrSchedule := .constant
  lr_exponential_halflife : Option ℚ := none
  unit_norm_matrices : Bool := false
  task_config : TaskConfig
deriving DecidableEq

/-- Whether a rational is a whole number (float.is_integer in the source). -/
def is_integer (q : ℚ) : Bool := q.den == 1

/-- Config.validate_model (run_spd.py:112-197): true iff construction
succeeds.  Each conjunct mirrors one raise/assert of the validator, in
source order; logger.warning calls do not fail construction and are not
modelled. -/
def validate_model (c : Config) : Bool :=
  (match c.topk with
   | none => true
   | some t => c.batch_topk || is_integer t) &&
  (c.topk_recon_coeff.isNone || c.topk.isSome) &&
  (c.lp_sparsity_coeff.isNone || c.pnorm.isSome) &&
  (c.topk.isSome || (c.topk_l2_coeff.isNone && c.topk_recon_coeff.isNone)) &&
  (!(decide (c.lr_schedule = .exponential)) || c.lr_exponential_halflife.isSome) &&
  (!(decide (c.spd_type = .full_rank)) || !c.unit_norm_matrices) &&
  (c.schatten_coeff.isNone
    || (decide (c.spd_type = .rank_penalty) && c.schatten_pnorm.isSome)) &&
  (!c.distil_from_target || c.task_config.isPiecewise) &&
  (c.m.isNone || decide (c.spd_type = .rank_penalty)) &&
  (match c.task_config with
   | .piecewise n_layers handcoded => !handcoded || decide (n_layers = 1)
   | _ => true) &&
  (!c.task_config.isResidualMLP || decide (c.spd_type = .rank_penalty))

/-- State of the training-data iterator in `optimize`: current epoch and the
position of the iterator within the data source's pass. -/
structure DataIterState where
  epoch : ℕ
  idx : ℕ
deriving DecidableEq

/-- The batch-drawing step of `optimize` (run_spd.py:519-526): take the next
(batch, label) pair and keep only the batch; on exhaustion (StopIteration)
increment the epoch, build a fresh iterator and take its first element.  A
data source with no batches at all re-raises on the fresh iterator, which
the except clause does not cover (none). -/
def draw_next_batch {α β : Type} (dataloader : List (α × β)) (s : DataIterState) :
    Option (α × DataIterState) :=
  if h : s.idx < dataloader.length then
    some ((dataloader.get ⟨s.idx, h⟩).1, ⟨s.epoch, s.idx + 1⟩)
  else
    match dataloader with
    | [] => none
    | b :: _ => some (b.1, ⟨s.epoch + 1, 1⟩)

/-- Observable state of the `optimize` loop: model parameters, the number of
optimizer updates performed, and the steps whose side-effect block
(logging / plotting / checkpointing) ran. -/
structure OptLoopState (σ : Type) where
  params : σ
  n_updates : ℕ
  visited : List ℕ

/-- One iteration of `optimize` (run_spd.py:502-507, 763-781): when
config.unit_norm_matrices is set, model.set_matrices_to_unit_norm() runs
unconditionally at the top of the iteration — in the final one too — and
mutates the parameters in place; the side-effect block (logging / plotting /
checkpointing) runs unconditionally; loss.backward() and opt.step() are
skipped when step = config.steps. -/
def optimize_step {σ : Type} (steps : ℕ) (unit_norm_matrices : Bool)
    (set_matrices_to_unit_norm : σ → σ) (update : ℕ → σ → σ) (s : OptLoopState σ)
    (step : ℕ) : OptLoopState σ :=
  let p := if unit_norm_matrices then set_matrices_to_unit_norm s.params else s.params
  { params := if step ≠ steps then update step p else p
    n_updates := s.n_updates + (if step ≠ steps then 1 else 0)
    visited := s.visited ++ [step] }

/-- The `optimize` loop driver: `for step in range(config.steps + 1)`. -/
def optimize_loop {σ : Type} (steps : ℕ) (unit_norm_matrices : Bool)
    (set_matrices_to_unit_norm : σ → σ) (update : ℕ → σ → σ) (init : σ) :
    OptLoopState σ :=
  (List.range (steps + 1)).foldl
    (optimize_step steps unit_norm_matrices set_matrices_to_unit_norm update) ⟨init, 0, []⟩

/-- A concrete stand-in for set_matrices_to_unit_norm on scalar parameters:
project every value onto "norm one". -/
def c10Norm : ℤ → ℤ := fun _ => 1

/-- A concrete stand-in for the optimizer update: double the parameter. -/
def c10Update : ℕ → ℤ → ℤ := fun _ p => p + p

/-- The multi-parameter fixture of TestCalcParamMatchLoss: pretrained
weights (2·ones(2,3), ones(3,2)) against subnetwork-summed weights
(ones(2,3)·ones(3,3), ones(3,3)·ones(3,2)); per-matrix mean squared
differences 1 and 4, each with 6 entries. -/
def paramMatchFixture : List (Mat × Mat) :=
  [((onesMat 2 3).map (fun r => r.map (fun z => 2 * z)), matMulQ (onesMat 2 3) (onesMat 3 3)),
   (onesMat 3 2, matMulQ (onesMat 3 3) (onesMat 3 2))]

/-- The full set of cross-field conditions checked by validate_model, as a
proposition: a config satisfies this iff it trips none of the validator's
raise/assert branches. -/
def valid_combinations (c : Config) : Prop :=
  (∀ t, c.topk = some t → c.batch_topk = true ∨ is_integer t = true)
  ∧ (c.topk_recon_coeff.isSome = true → c.topk.isSome = true)
  ∧ (c.lp_sparsity_coeff.isSome = true → c.pnorm.isSome = true)
  ∧ (c.topk = none → c.topk_l2_coeff = none ∧ c.topk_recon_coeff = none)
  ∧ (c.lr_schedule = LrSchedule.exponential → c.lr_exponential_halflife.isSome = true)
  ∧ (c.spd_type = SpdType.full_rank → c.unit_norm_matrices = false)
  ∧ (c.schatten_coeff.isSome = true →
      c.spd_type = SpdType.rank_penalty ∧ c.schatten_pnorm.isSome = true)
  ∧ (c.distil_from_target = true → c.task_config.isPiecewise = true)
  ∧ (c.m.isSome = true → c.spd_type = SpdType.rank_penalty)
  ∧ (∀ n hc, c.task_config = TaskConfig.piecewise n hc → hc = true → n = 1)
  ∧ (c.task_config = TaskConfig.residual_mlp → c.spd_type = SpdType.rank_penalty)

/-- A config that avoids all four invalid combinations named by the claim
(no topk at all, no sparsity or schatten coefficients, no unit-norming) yet
still fails validation, because topk_recon_coeff requires topk. -/
def c4Counterexample : Config :=
  { batch_size := 1, lr := 1, topk := none, topk_recon_coeff := some 1,
    task_config := TaskConfig.tms }

/-- A config with a fractional topk and batch_topk disabled. -/
def c4FractionalTopk : Config :=
  { batch_size := 1, lr := 1, topk := some (3 / 2), batch_topk := false,
    task_config := TaskConfig.tms }

/-- A config satisfying every validator condition. -/
def c4GoodConfig : Config :=
  { batch_size := 1, lr := 1, task_config := TaskConfig.tms }

/-! ### Shared helper lemmas -/

theorem sum_map_div (l : List ℚ) (c : ℚ) : (l.map (fun z => z / c)).sum = l.sum / c := by
  induction l with
  | nil => simp
  | cons h t ih => simp [ih, add_div]

theorem roundNat_natCast (n : ℕ) : roundNat (n : ℚ) = n := by
  simp [roundNat]

theorem optimize_foldl_no_last {σ : Type} (steps : ℕ) (unit_norm_matrices : Bool)
    (nrm : σ → σ) (update : ℕ → σ → σ) :
    ∀ (l : List ℕ), (∀ s ∈ l, s ≠ steps) → ∀ (p : σ) (n : ℕ) (v : List ℕ),
      l.foldl (optimize_step steps unit_norm_matrices nrm update) ⟨p, n, v⟩
        = ⟨l.foldl (fun q s => update s (if unit_norm_matrices then nrm q else q)) p,
           n + l.length, v ++ l⟩ := by
  intro l
  induction l with
  | nil => intro _ p n v; simp
  | cons s t ih =>
    intro hl p n v
    have hs : s ≠ steps := hl s (List.mem_cons_self s t)
    simp only [List.foldl_cons, optimize_step, if_pos hs]
    rw [ih (fun a ha => hl a (List.mem_cons_of_mem s ha))]
    simp only [List.foldl_cons, List.length_cons, List.append_assoc, List.singleton_append,
      OptLoopState.mk.injEq, and_true, true_and]
    omega

/-! ### C10: the optimize loop performs exactly `steps` updates -/

/-- C10 (amended): `optimize` iterates step = 0 .. config.steps (steps + 1
iterations, all of which run the side-effect block), performs the optimizer
update only when step ≠ config.steps — hence exactly `steps` updates.  With
unit_norm_matrices off, the final iteration leaves the parameters exactly as
after folding the first `steps` updates; with unit_norm_matrices on, the
unconditional set_matrices_to_unit_norm() still runs at the top of the final
iteration (run_spd.py:503-507), so its only effect on the parameters is that
one extra in-place projection. -/
theorem c10_final_step_no_update {σ : Type} (steps : ℕ) (unit_norm_matrices : Bool)
    (set_matrices_to_unit_norm : σ → σ) (update : ℕ → σ → σ) (init : σ) :
    (optimize_loop steps unit_norm_matrices set_matrices_to_unit_norm update init).visited
        = List.range (steps + 1)
    ∧ (optimize_loop steps unit_norm_matrices set_matrices_to_unit_norm update init).n_updates
        = steps
    ∧ (unit_norm_matrices = false →
        (optimize_loop steps unit_norm_matrices set_matrices_to_unit_norm update init).params
          = (List.range steps).foldl (fun p s => update s p) init)
    ∧ (unit_norm_matrices = true →
        (optimize_loop steps unit_norm_matrices set_matrices_to_unit_norm update init).params
          = set_matrices_to_unit_norm
              ((List.range steps).foldl
                (fun p s => update s (set_matrices_to_unit_norm p)) init)) := by
  cases unit_norm_matrices with
  | false =>
    have hmain : optimize_loop steps false set_matrices_to_unit_norm update init
        = ⟨(List.range steps).foldl (fun q s => update s q) init, steps,
           List.range (steps + 1)⟩ := by
      unfold optimize_loop
      rw [List.range_succ, List.foldl_append,
        optimize_foldl_no_last steps false set_matrices_to_unit_norm update (List.range steps)
          (fun s hs => Nat.ne_of_lt (List.mem_range.mp hs)) init 0 []]
      simp [optimize_step, List.range_succ]
    rw [hmain]
    exact ⟨rfl, rfl, fun _ => rfl, fun h => absurd h (by simp)⟩
  | true =>
    have hmain : optimize_loop steps true set_matrices_to_unit_norm update init
        = ⟨set_matrices_to_unit_norm
             ((List.range steps).foldl
               (fun q s => update s (set_matrices_to_unit_norm q)) init), steps,
           List.range (steps + 1)⟩ := by
      unfold optimize_loop
      rw [List.range_succ, List.foldl_append,
        optimize_foldl_no_last steps true set_matrices_to_unit_norm update (List.range steps)
          (fun s hs => Nat.ne_of_lt (List.mem_range.mp hs)) init 0 []]
      simp [optimize_step, List.range_succ]
    rw [hmain]
    exact ⟨rfl, rfl, fun h => absurd h (by simp), fun _ => rfl⟩

/-- C10 counterexample: with unit_norm_matrices set, the final iteration
does not leave the parameters unchanged — the unconditional unit-norm
projection still runs at step = steps.  With steps = 1, projection
c10Norm (everything to 1), update c10Update (doubling) and initial value 5,
the full loop ends with params 1 while the loop without its final iteration
ends with params 2. -/
theorem c10_counterexample :
    (optimize_loop 1 true c10Norm c10Update 5).params
      ≠ ((List.range 1).foldl (optimize_step 1 true c10Norm c10Update)
          ⟨5, 0, []⟩).params := by
  decide

/-- Witness for C10 at steps = 1 with the concrete projection and update:
without unit_norm_matrices the final iteration is a no-op on the
parameters; with it, the final iteration applies exactly one more
projection. -/
theorem c10_witness :
    (optimize_loop 1 false c10Norm c10Update 5).params
        = (List.range 1).foldl (fun p s => c10Update s p) 5
    ∧ (optimize_loop 1 true c10Norm c10Update 5).params
        = c10Norm ((List.range 1).foldl (fun p s => c10Update s (c10Norm p)) 5) :=
  ⟨(c10_final_step_no_update 1 false c10Norm c10Update 5).2.2.1 rfl,
   (c10_final_step_no_update 1 true c10Norm c10Update 5).2.2.2 rfl⟩

/-! ### C9: StopIteration starts a new epoch instead of aborting -/

/-- C9: drawing the next batch never aborts for a data source with at least
one batch per pass: within a pass the epoch is unchanged, and on exhaustion
the epoch counter increments, iteration restarts, and the step proceeds with
the first batch of the fresh pass. -/
theorem c9_stop_iteration_handled {α β : Type} (dataloader : List (α × β))
    (s : DataIterState) (hne : dataloader ≠ []) :
    (∃ r, draw_next_batch dataloader s = some r)
    ∧ (s.idx < dataloader.length →
        ∃ h, draw_next_batch dataloader s
          = some ((dataloader.get ⟨s.idx, h⟩).1, ⟨s.epoch, s.idx + 1⟩))
    ∧ (dataloader.length ≤ s.idx →
        ∃ b rest, dataloader = b :: rest
          ∧ draw_next_batch dataloader s = some (b.1, ⟨s.epoch + 1, 1⟩)) := by
  match dataloader, hne with
  | b :: rest, _ =>
    refine ⟨?_, ?_, ?_⟩
    · unfold draw_next_batch
      split
      · exact ⟨_, rfl⟩
      · exact ⟨_, rfl⟩
    · intro hlt
      exact ⟨hlt, by unfold draw_next_batch; rw [dif_pos hlt]⟩
    · intro hle
      refine ⟨b, rest, rfl, ?_⟩
      unfold draw_next_batch
      rw [dif_neg (by omega)]

/-- Witness for C9 at a concrete one-batch data source in the exhausted
state: the draw succeeds and starts epoch 1 with the first batch. -/
theorem c9_witness :
    (∃ r, draw_next_batch [((1 : ℕ), (2 : ℕ))] ⟨0, 5⟩ = some r)
    ∧ ((5 : ℕ) < [((1 : ℕ), (2 : ℕ))].length →
        ∃ h, draw_next_batch [((1 : ℕ), (2 : ℕ))] ⟨0, 5⟩
          = some (([((1 : ℕ), (2 : ℕ))].get ⟨5, h⟩).1, ⟨0, 5 + 1⟩))
    ∧ ([((1 : ℕ), (2 : ℕ))].length ≤ 5 →
        ∃ b rest, [((1 : ℕ), (2 : ℕ))] = b :: rest
          ∧ draw_next_batch [((1 : ℕ), (2 : ℕ))] ⟨0, 5⟩ = some (b.1, ⟨0 + 1, 1⟩)) :=
  c9_stop_iteration_handled [((1 : ℕ), (2 : ℕ))] ⟨0, 5⟩ (List.cons_ne_nil _ _)

/-! ### C7: the 1e-16 floor precedes the fractional power -/

/-- C7: in both the Lp-sparsity loss and the Schatten loss the constant
1e-16 is added to the non-negative base before the fractional power, so the
base is strictly positive and the power function has a finite derivative
there (no NaN / division by zero from the fractional power at a zero
attribution or Gram value). -/
theorem c7_epsilon_before_fractional_power (attribution d_model_out step_pnorm : ℝ)
    (S_AB_topk : ℝ) (hS : 0 ≤ S_AB_topk) :
    (0 < |attribution / d_model_out| + 1e-16
      ∧ calc_lp_sparsity_loss attribution d_model_out step_pnorm
          = (fun b : ℝ => b ^ (step_pnorm * 0.5)) (|attribution / d_model_out| + 1e-16)
      ∧ HasDerivAt (fun b : ℝ => b ^ (step_pnorm * 0.5))
          (step_pnorm * 0.5 * (|attribution / d_model_out| + 1e-16) ^ (step_pnorm * 0.5 - 1))
          (|attribution / d_model_out| + 1e-16))
    ∧ (0 < S_AB_topk + 1e-16
      ∧ calc_schatten_loss_term S_AB_topk step_pnorm
          = (fun b : ℝ => b ^ (0.5 * step_pnorm)) (S_AB_topk + 1e-16)
      ∧ HasDerivAt (fun b : ℝ => b ^ (0.5 * step_pnorm))
          (0.5 * step_pnorm * (S_AB_topk + 1e-16) ^ (0.5 * step_pnorm - 1))
          (S_AB_topk + 1e-16)) := by
  have heps : (0 : ℝ) < 1e-16 := by norm_num
  have ha : 0 < |attribution / d_model_out| + 1e-16 := by
    have := abs_nonneg (attribution / d_model_out)
    linarith
  have hb : 0 < S_AB_topk + 1e-16 := by linarith
  exact ⟨⟨ha, rfl, Real.hasDerivAt_rpow_const (Or.inl (ne_of_gt ha))⟩,
         ⟨hb, rfl, Real.hasDerivAt_rpow_const (Or.inl (ne_of_gt hb))⟩⟩

/-- Witness for C7 at attribution 0 and Gram value 0 (the exact-zero edge
case the spec highlights). -/
theorem c7_witness :
    (0 < |(0 : ℝ) / 1| + 1e-16
      ∧ calc_lp_sparsity_loss 0 1 (1 / 2)
          = (fun b : ℝ => b ^ ((1 : ℝ) / 2 * 0.5)) (|(0 : ℝ) / 1| + 1e-16)
      ∧ HasDerivAt (fun b : ℝ => b ^ ((1 : ℝ) / 2 * 0.5))
          ((1 : ℝ) / 2 * 0.5 * (|(0 : ℝ) / 1| + 1e-16) ^ ((1 : ℝ) / 2 * 0.5 - 1))
          (|(0 : ℝ) / 1| + 1e-16))
    ∧ (0 < (0 : ℝ) + 1e-16
      ∧ calc_schatten_loss_term 0 (1 / 2)
          = (fun b : ℝ => b ^ (0.5 * ((1 : ℝ) / 2))) ((0 : ℝ) + 1e-16)
      ∧ HasDerivAt (fun b : ℝ => b ^ (0.5 * ((1 : ℝ) / 2)))
          (0.5 * ((1 : ℝ) / 2) * ((0 : ℝ) + 1e-16) ^ (0.5 * ((1 : ℝ) / 2) - 1))
          ((0 : ℝ) + 1e-16)) :=
  c7_epsilon_before_fractional_power 0 1 (1 / 2) 0 (le_refl 0)

/-! ### C5: worked top-k L2 fixtures -/

/-- C5: on the DummySPDModel fixtures (all-ones A and B factors), the top-k
L2 loss is exactly 1.0 for mask [[True,False,False]] and exactly 9.0 for
mask [[True,True,True]] (d_in = d_out = 2, k = 3, n_params = 4), and on the
2-instance, k = 2, d_in = d_out = 1 fixture with mask
[[[1,0],[0,1]],[[0,1],[1,1]]] it is exactly [1.0, 2.5]. -/
theorem c5_topk_l2_worked_fixtures :
    calc_topk_l2_full_rank [ABtoSubnets (onesMat 2 3) (onesMat 3 2)]
        [[true, false, false]] 4 = 1
    ∧ calc_topk_l2_full_rank [ABtoSubnets (onesMat 2 3) (onesMat 3 2)]
        [[true, true, true]] 4 = 9
    ∧ calc_topk_l2_full_rank_inst [List.replicate 2 (ABtoSubnets (onesMat 1 2) (onesMat 2 1))]
        [[[true, false], [false, true]], [[false, true], [true, true]]] 1 = [1, 5 / 2] := by
  refine ⟨?_, ?_, ?_⟩ <;>
    norm_num [calc_topk_l2_full_rank, calc_topk_l2_full_rank_inst, ABtoSubnets, onesMat,
      maskedSum, sumSq, addMat, scaleMat, zeroMat, boolToQ, List.range_succ,
      List.replicate_succ]

/-! ### C2: parameter-match loss normalisation -/

/-- C2 counterexample: with two matrices of different sizes (1 and 2 entries,
per-matrix mean squared differences 1 and 4, total parameter count 3) the
source's calc_param_match_loss gives 3, not the arithmetic mean 2.5 of the
per-matrix mean squared differences — so the claim's "any shapes" clause
fails on the code. -/
theorem c2_counterexample :
    calc_param_match_loss [([[0]], [[1]]), ([[0, 0]], [[2, 2]])] 3 = 3
    ∧ param_match_mean_of_msds [([[0]], [[1]]), ([[0, 0]], [[2, 2]])] = 5 / 2
    ∧ (3 : ℚ) ≠ 5 / 2 := by
  refine ⟨?_, ?_, by norm_num⟩ <;>
    norm_num [calc_param_match_loss, param_match_mean_of_msds, sumSqDiff, numelQ]

/-- C2 (amended): calc_param_match_loss normalised by the total parameter
count equals the element-count-weighted mean of the per-matrix mean squared
differences; when every matrix has the same number c of entries this is
exactly the arithmetic mean of the per-matrix mean squared differences. -/
theorem c2_param_match_equal_sizes (params : List (Mat × Mat)) (c : ℚ)
    (hc : ∀ p ∈ params, numelQ p.1 = c) :
    calc_param_match_loss params ((params.length : ℚ) * c)
      = param_match_mean_of_msds params := by
  unfold calc_param_match_loss param_match_mean_of_msds
  have h1 : params.map (fun p => sumSqDiff p.2 p.1 / numelQ p.1)
      = params.map (fun p => sumSqDiff p.2 p.1 / c) :=
    List.map_congr_left (fun p hp => by rw [hc p hp])
  have h2 : params.map (fun p => sumSqDiff p.2 p.1 / c)
      = (params.map (fun p => sumSqDiff p.2 p.1)).map (fun z => z / c) := by
    rw [List.map_map]
    rfl
  rw [h1, h2, sum_map_div, div_div, mul_comm]

/-- Witness for C2 on the worked fixture: with equal sizes (6 entries each,
n_params = 12) the loss equals the mean of the per-matrix values and is
exactly 2.5. -/
theorem c2_witness :
    calc_param_match_loss paramMatchFixture ((paramMatchFixture.length : ℚ) * 6)
      = param_match_mean_of_msds paramMatchFixture
    ∧ param_match_mean_of_msds paramMatchFixture = 5 / 2 := by
  constructor
  · exact c2_param_match_equal_sizes paramMatchFixture 6 (by
      intro p hp
      simp only [paramMatchFixture, List.mem_cons, List.not_mem_nil, or_false] at hp
      rcases hp with rfl | rfl <;>
        norm_num [numelQ, onesMat, List.replicate_succ])
  · norm_num [param_match_mean_of_msds, paramMatchFixture, sumSqDiff, numelQ, onesMat,
      matMulQ, dotQ, colQ, List.range_succ, List.replicate_succ]


/-! ### C4: config validation -/

/-- Bridge lemma: validate_model succeeds exactly on the configs satisfying
every one of the validator's cross-field conditions. -/
theorem validate_model_eq_true_iff (c : Config) :
    validate_model c = true ↔ valid_combinations c := by
  constructor
  · intro h
    simp only [validate_model, Bool.and_eq_true] at h
    obtain ⟨⟨⟨⟨⟨⟨⟨⟨⟨⟨b1, b2⟩, b3⟩, b4⟩, b5⟩, b6⟩, b7⟩, b8⟩, b9⟩, b10⟩, b11⟩ := h
    refine ⟨?_, ?_, ?_, ?_, ?_, ?_, ?_, ?_, ?_, ?_, ?_⟩
    · intro t ht
      rw [ht] at b1
      simpa using b1
    · intro hrc
      rcases Bool.or_eq_true_iff.mp b2 with hb | hb
      · rw [Option.isNone_iff_eq_none.mp hb] at hrc
        simp at hrc
      · exact hb
    · intro hl
      rcases Bool.or_eq_true_iff.mp b3 with hb | hb
      · rw [Option.isNone_iff_eq_none.mp hb] at hl
        simp at hl
      · exact hb
    · intro htk
      rw [htk] at b4
      simp only [Option.isSome_none, Bool.false_or, Bool.and_eq_true] at b4
      exact ⟨Option.isNone_iff_eq_none.mp b4.1, Option.isNone_iff_eq_none.mp b4.2⟩
    · intro hl
      rcases Bool.or_eq_true_iff.mp b5 with hb | hb
      · simp [hl] at hb
      · exact hb
    · intro hs
      rcases Bool.or_eq_true_iff.mp b6 with hb | hb
      · simp [hs] at hb
      · simpa using hb
    · intro hsc
      rcases Bool.or_eq_true_iff.mp b7 with hb | hb
      · rw [Option.isNone_iff_eq_none.mp hb] at hsc
        simp at hsc
      · have hb' := hb
        simp only [Bool.and_eq_true] at hb'
        exact ⟨of_decide_eq_true hb'.1, hb'.2⟩
    · intro hd
      rcases Bool.or_eq_true_iff.mp b8 with hb | hb
      · simp [hd] at hb
      · exact hb
    · intro hm
      rcases Bool.or_eq_true_iff.mp b9 with hb | hb
      · rw [Option.isNone_iff_eq_none.mp hb] at hm
        simp at hm
      · exact of_decide_eq_true hb
    · intro n hc htc hhc
      rw [htc] at b10
      rw [hhc] at b10
      simpa using b10
    · intro htc
      rw [htc] at b11
      simpa [TaskConfig.isResidualMLP] using b11
  · rintro ⟨h1, h2, h3, h4, h5, h6, h7, h8, h9, h10, h11⟩
    have e1 : (match c.topk with
        | none => true
        | some t => c.batch_topk || is_integer t) = true := by
      cases htk : c.topk with
      | none => rfl
      | some t =>
        rcases h1 t htk with hb | hb <;> simp [hb]
    have e2 : (c.topk_recon_coeff.isNone || c.topk.isSome) = true := by
      cases h : c.topk_recon_coeff with
      | none => simp
      | some v => simp [h2 (by simp [h])]
    have e3 : (c.lp_sparsity_coeff.isNone || c.pnorm.isSome) = true := by
      cases h : c.lp_sparsity_coeff with
      | none => simp
      | some v => simp [h3 (by simp [h])]
    have e4 : (c.topk.isSome || (c.topk_l2_coeff.isNone && c.topk_recon_coeff.isNone)) = true := by
      cases h : c.topk with
      | none => simp [(h4 h).1, (h4 h).2]
      | some v => simp
    have e5 : (!(decide (c.lr_schedule = LrSchedule.exponential))
        || c.lr_exponential_halflife.isSome) = true := by
      by_cases h : c.lr_schedule = LrSchedule.exponential
      · simp [h5 h]
      · simp [h]
    have e6 : (!(decide (c.spd_type = SpdType.full_rank)) || !c.unit_norm_matrices) = true := by
      by_cases h : c.spd_type = SpdType.full_rank
      · simp [h6 h]
      · simp [h]
    have e7 : (c.schatten_coeff.isNone
        || (decide (c.spd_type = SpdType.rank_penalty) && c.schatten_pnorm.isSome)) = true := by
      cases h : c.schatten_coeff with
      | none => simp
      | some v => simp [(h7 (by simp [h])).1, (h7 (by simp [h])).2]
    have e8 : (!c.distil_from_target || c.task_config.isPiecewise) = true := by
      cases h : c.distil_from_target
      · simp
      · simp [h8 h]
    have e9 : (c.m.isNone || decide (c.spd_type = SpdType.rank_penalty)) = true := by
      cases h : c.m with
      | none => simp
      | some v => simp [h9 (by simp [h])]
    have e10 : (match c.task_config with
        | TaskConfig.piecewise n_layers handcoded => !handcoded || decide (n_layers = 1)
        | _ => true) = true := by
      cases htc : c.task_config with
      | piecewise n hc =>
        cases hhc : hc with
        | false => rfl
        | true => simp [h10 n hc htc (by rw [hhc])]
      | tms => rfl
      | residual_mlp => rfl
    have e11 : (!c.task_config.isResidualMLP || decide (c.spd_type = SpdType.rank_penalty))
        = true := by
      cases htc : c.task_config with
      | residual_mlp => simp [TaskConfig.isResidualMLP, h11 htc]
      | tms => rfl
      | piecewise n hc => rfl
    unfold validate_model
    rw [e1, e2, e3, e4, e5, e6, e7, e8, e9, e10, e11]
    rfl

/-- C4 (amended): each of the four listed invalid combinations makes
validate_model fail at construction time; and a config passing every one of
the validator's checked conditions (the four listed ones plus the further
source checks collected in valid_combinations) constructs successfully.
The original claim's converse — that freedom from the four listed
combinations alone suffices — is refuted by c4_counterexample. -/
theorem c4_config_validation (c : Config) :
    ((∃ t, c.topk = some t ∧ is_integer t = false) → c.batch_topk = false →
        validate_model c = false)
    ∧ (c.lp_sparsity_coeff.isSome = true → c.pnorm = none → validate_model c = false)
    ∧ (c.schatten_coeff.isSome = true →
        (c.spd_type ≠ SpdType.rank_penalty ∨ c.schatten_pnorm = none) →
        validate_model c = false)
    ∧ (c.unit_norm_matrices = true → c.spd_type = SpdType.full_rank →
        validate_model c = false)
    ∧ (valid_combinations c → validate_model c = true) := by
  refine ⟨?_, ?_, ?_, ?_, fun h => (validate_model_eq_true_iff c).mpr h⟩
  · rintro ⟨t, ht, hint⟩ hbt
    rw [Bool.eq_false_iff]
    intro htrue
    rcases ((validate_model_eq_true_iff c).mp htrue).1 t ht with hb | hb
    · rw [hbt] at hb
      simp at hb
    · rw [hint] at hb
      simp at hb
  · intro hl hp
    rw [Bool.eq_false_iff]
    intro htrue
    have := ((validate_model_eq_true_iff c).mp htrue).2.2.1 hl
    rw [hp] at this
    simp at this
  · intro hs hcase
    rw [Bool.eq_false_iff]
    intro htrue
    have := ((validate_model_eq_true_iff c).mp htrue).2.2.2.2.2.2.1 hs
    rcases hcase with hspd | hsp
    · exact hspd this.1
    · rw [hsp] at this
      simp at this
  · intro hu hs
    rw [Bool.eq_false_iff]
    intro htrue
    have := ((validate_model_eq_true_iff c).mp htrue).2.2.2.2.2.1 hs
    rw [hu] at this
    simp at this

/-- C4 counterexample: c4Counterexample avoids all four invalid combinations
of the claim, yet Config construction still fails (topk_recon_coeff without
topk), refuting "every config free of all these combinations constructs
successfully". -/
theorem c4_counterexample :
    c4Counterexample.topk = none
    ∧ c4Counterexample.lp_sparsity_coeff = none
    ∧ c4Counterexample.schatten_coeff = none
    ∧ c4Counterexample.unit_norm_matrices = false
    ∧ validate_model c4Counterexample = false :=
  ⟨rfl, rfl, rfl, rfl, rfl⟩

/-- Witness for C4: the fractional-topk / batch_topk=False config is
rejected and the all-conditions-satisfied config is accepted. -/
theorem c4_witness :
    validate_model c4FractionalTopk = false ∧ validate_model c4GoodConfig = true := by
  constructor
  · exact (c4_config_validation c4FractionalTopk).1
      ⟨3 / 2, rfl, by
        have h : ((3 : ℚ) / 2).den = 2 := by norm_num
        simp [is_integer, h]⟩ rfl
  · exact (c4_config_validation c4GoodConfig).2.2.2.2 (by
      refine ⟨?_, ?_, ?_, ?_, ?_, ?_, ?_, ?_, ?_, ?_, ?_⟩ <;> simp [c4GoodConfig])

/-! ### C1 / C8: top-k mask selector lemmas -/

theorem topkOrder_perm (l : List ℚ) : List.Perm (topkOrder l) (List.range l.length) := by
  have h := (List.perm_insertionSort topkRel ((List.range l.length).zip l)).map Prod.fst
  rwa [List.map_fst_zip _ _ (by simp)] at h

theorem topkOrder_nodup (l : List ℚ) : (topkOrder l).Nodup :=
  (topkOrder_perm l).nodup_iff.mpr (List.nodup_range _)

theorem topkOrder_mem {l : List ℚ} {i : ℕ} (h : i ∈ topkOrder l) : i < l.length :=
  List.mem_range.mp ((topkOrder_perm l).mem_iff.mp h)

theorem count_true_mem_mask (len : ℕ) :
    ∀ (S : List ℕ), S.Nodup → (∀ i ∈ S, i < len) →
      ((List.range len).map (fun i => decide (i ∈ S))).count true = S.length := by
  induction len with
  | zero =>
    intro S _ hmem
    have : S = [] := List.eq_nil_iff_forall_not_mem.mpr
      (fun i hi => Nat.not_lt_zero i (hmem i hi))
    simp [this]
  | succ n ih =>
    intro S hnd hmem
    rw [List.range_succ, List.map_append, List.count_append]
    by_cases hn : n ∈ S
    · have herase : ((List.range n).map (fun i => decide (i ∈ S))).count true
          = ((List.range n).map (fun i => decide (i ∈ S.erase n))).count true := by
        have : ∀ i ∈ List.range n, decide (i ∈ S) = decide (i ∈ S.erase n) := by
          intro i hi
          have hne : i ≠ n := Nat.ne_of_lt (List.mem_range.mp hi)
          simp [List.mem_erase_of_ne hne]
        rw [List.map_congr_left this]
      have hcount : ((List.range n).map (fun i => decide (i ∈ S.erase n))).count true
          = (S.erase n).length := by
        refine ih (S.erase n) (hnd.erase n) ?_
        intro i hi
        rcases (List.Nodup.mem_erase_iff hnd).mp hi with ⟨hne, hiS⟩
        have := hmem i hiS
        omega
      rw [herase, hcount, List.length_erase_of_mem hn]
      have hlen : 1 ≤ S.length := List.length_pos.mpr
        (List.ne_nil_of_mem hn)
      simp [hn]
      omega
    · have hcount : ((List.range n).map (fun i => decide (i ∈ S))).count true = S.length := by
        refine ih S hnd ?_
        intro i hi
        have := hmem i hi
        have hne : i ≠ n := fun he => hn (he ▸ hi)
        omega
      rw [hcount]
      simp [hn]

theorem countTrue_flatTopkMask (l : List ℚ) (n : ℕ) (h : n ≤ l.length) :
    countTrue (flatTopkMask l n) = n := by
  have hnd : ((topkOrder l).take n).Nodup := (List.take_sublist n _).nodup (topkOrder_nodup l)
  have hmem : ∀ i ∈ (topkOrder l).take n, i < l.length :=
    fun i hi => topkOrder_mem ((List.take_sublist n _).subset hi)
  have hlen : ((topkOrder l).take n).length = n := by
    rw [List.length_take, (topkOrder_perm l).length_eq, List.length_range]
    omega
  unfold countTrue flatTopkMask
  rw [count_true_mem_mask l.length _ hnd hmem, hlen]

theorem flatTopkMask_length (l : List ℚ) (n : ℕ) : (flatTopkMask l n).length = l.length := by
  simp [flatTopkMask]

theorem flatten_splitShape (counts : List ℕ) :
    ∀ m : List Bool, counts.sum = m.length → (splitShape counts m).flatten = m := by
  induction counts with
  | nil =>
    intro m h
    simp only [List.sum_nil] at h
    simp [splitShape, (List.length_eq_zero.mp h.symm)]
  | cons c cs ih =>
    intro m h
    simp only [List.sum_cons] at h
    simp only [splitShape, List.flatten_cons]
    rw [ih (m.drop c) (by simp [List.length_drop]; omega), List.take_append_drop]

theorem splitShape_lengths (counts : List ℕ) :
    ∀ m : List Bool, counts.sum = m.length → (splitShape counts m).map List.length = counts := by
  induction counts with
  | nil => intro m _; rfl
  | cons c cs ih =>
    intro m h
    simp only [List.sum_cons] at h
    simp only [splitShape, List.map_cons]
    rw [ih (m.drop c) (by simp [List.length_drop]; omega), List.length_take]
    congr 1
    omega

theorem calc_topk_mask_length (attributions : List (List ℚ)) (topk : ℚ) (batch_topk : Bool) :
    (calc_topk_mask attributions topk batch_topk).length = attributions.length := by
  unfold calc_topk_mask
  cases batch_topk with
  | true =>
    simp only [if_pos]
    have h : (attributions.map List.length).sum
        = (flatTopkMask attributions.flatten (roundNat (topk * attributions.length))).length := by
      rw [flatTopkMask_length, List.length_flatten]
    calc (splitShape (attributions.map List.length) _).length
        = ((splitShape (attributions.map List.length) _).map List.length).length := by
          rw [List.length_map]
      _ = attributions.length := by rw [splitShape_lengths _ _ h, List.length_map]
  | false => simp

theorem calc_topk_mask_shape (attributions : List (List ℚ)) (topk : ℚ) (batch_topk : Bool) :
    (calc_topk_mask attributions topk batch_topk).map List.length
      = attributions.map List.length := by
  unfold calc_topk_mask
  cases batch_topk with
  | true =>
    simp only [if_pos]
    exact splitShape_lengths _ _ (by rw [flatTopkMask_length, List.length_flatten])
  | false =>
    simp only [Bool.false_eq_true, if_false, List.map_map]
    exact List.map_congr_left (fun r _ => flatTopkMask_length r (roundNat topk))

theorem calc_topk_mask_batch_count (attributions : List (List ℚ)) (topk : ℚ)
    (h : roundNat (topk * attributions.length) ≤ attributions.flatten.length) :
    countTrue (calc_topk_mask attributions topk true).flatten
      = roundNat (topk * attributions.length) := by
  unfold calc_topk_mask
  simp only [if_pos]
  rw [flatten_splitShape _ _ (by rw [flatTopkMask_length, List.length_flatten])]
  exact countTrue_flatTopkMask _ _ h

/-- C1: the selector's mask has the same shape as the scores and an exact
True count per selection group: with batch_topk the top
round(topk * batch_size) entries pooled over the whole batch (per instance
when an instance dimension is present), and without batch_topk exactly topk
entries in each sample's row.  (calc_topk_mask is modelled from the spec;
see its doc comment.) -/
theorem c1_topk_mask_exact_count (attributions : List (List ℚ))
    (attributionsI : List (List (List ℚ))) (topk : ℚ)
    (hbatch : roundNat (topk * attributions.length) ≤ attributions.flatten.length)
    (hinst : ∀ inst ∈ attributionsI,
      roundNat (topk * inst.length) ≤ inst.flatten.length) :
    ((calc_topk_mask attributions topk true).map List.length
        = attributions.map List.length
      ∧ countTrue (calc_topk_mask attributions topk true).flatten
          = roundNat (topk * attributions.length))
    ∧ (∀ tk : ℕ, topk = (tk : ℚ) →
        (calc_topk_mask attributions topk false).map List.length
            = attributions.map List.length
          ∧ ((∀ row ∈ attributions, tk ≤ row.length) →
              ∀ mrow ∈ calc_topk_mask attributions topk false, countTrue mrow = tk))
    ∧ (∀ minst ∈ calc_topk_mask_inst attributionsI topk true,
        ∃ inst ∈ attributionsI, minst.map List.length = inst.map List.length
          ∧ countTrue minst.flatten = roundNat (topk * inst.length)) := by
  refine ⟨⟨calc_topk_mask_shape attributions topk true,
           calc_topk_mask_batch_count attributions topk hbatch⟩, ?_, ?_⟩
  · intro tk htk
    refine ⟨calc_topk_mask_shape attributions topk false, ?_⟩
    intro hrows mrow hmrow
    unfold calc_topk_mask at hmrow
    simp only [Bool.false_eq_true, if_false, List.mem_map] at hmrow
    obtain ⟨row, hrow, rfl⟩ := hmrow
    rw [htk, roundNat_natCast]
    exact countTrue_flatTopkMask row tk (hrows row hrow)
  · intro minst hminst
    unfold calc_topk_mask_inst at hminst
    obtain ⟨inst, hinstmem, rfl⟩ := List.mem_map.mp hminst
    exact ⟨inst, hinstmem, calc_topk_mask_shape inst topk true,
           calc_topk_mask_batch_count inst topk (hinst inst hinstmem)⟩

/-- Witness for C1 on a 2x2 score tensor with topk = 2: 4 pooled Trues with
batch_topk, 2 per row without. -/
theorem c1_witness :
    ((calc_topk_mask [[1, 2], [3, 4]] 2 true).map List.length
        = ([[1, 2], [3, 4]] : List (List ℚ)).map List.length
      ∧ countTrue (calc_topk_mask [[1, 2], [3, 4]] 2 true).flatten
          = roundNat (2 * ([[1, 2], [3, 4]] : List (List ℚ)).length))
    ∧ ((calc_topk_mask [[1, 2], [3, 4]] 2 false).map List.length
        = ([[1, 2], [3, 4]] : List (List ℚ)).map List.length
      ∧ ∀ mrow ∈ calc_topk_mask [[1, 2], [3, 4]] 2 false, countTrue mrow = 2) := by
  have h := c1_topk_mask_exact_count [[1, 2], [3, 4]] [] 2
    (by
      have h4 : roundNat ((2 : ℚ) * 2) = 4 := by
        norm_num [roundNat, round_eq]
        decide
      simpa using Nat.le_of_eq h4)
    (by intro inst hinst; simp at hinst)
  have hper := h.2.1 2 (by norm_num)
  exact ⟨h.1, hper.1, hper.2 (by decide)⟩

/-- C8: with distil_from_target enabled, the top-k selection runs only over
the attribution tensor with its last index dropped, and the mask gets one
extra always-True last column, so the catch-all subnetwork is selected on
every sample regardless of its attribution score. -/
theorem c8_distil_appends_always_true (attributions : List (List ℚ)) (topk : ℚ)
    (batch_topk : Bool) :
    (distil_topk_mask attributions topk batch_topk).map (fun r => r.getLast?)
        = List.replicate attributions.length (some true)
    ∧ (distil_topk_mask attributions topk batch_topk).map (fun r => r.dropLast)
        = calc_topk_mask (attributions.map (fun r => r.dropLast)) topk batch_topk := by
  constructor
  · unfold distil_topk_mask
    rw [List.map_map]
    have h1 : (calc_topk_mask (attributions.map (fun r => r.dropLast)) topk batch_topk).map
        ((fun r : List Bool => r.getLast?) ∘ (fun r => r ++ [true]))
        = (calc_topk_mask (attributions.map (fun r => r.dropLast)) topk batch_topk).map
            (fun _ => some true) :=
      List.map_congr_left (fun r _ => List.getLast?_concat r)
    rw [h1, List.map_const', calc_topk_mask_length, List.length_map]
  · unfold distil_topk_mask
    rw [List.map_map]
    have h1 : (calc_topk_mask (attributions.map (fun r => r.dropLast)) topk batch_topk).map
        ((fun r : List Bool => r.dropLast) ∘ (fun r => r ++ [true]))
        = (calc_topk_mask (attributions.map (fun r => r.dropLast)) topk batch_topk).map
            (fun r => r) :=
      List.map_congr_left (fun r _ => List.dropLast_concat)
    rw [h1, List.map_id']

/-! ### C6 / C3: masking lemmas for the parameter-component layers -/

theorem zipMul_replicate_true (r : List ℚ) :
    ∀ k, r.length ≤ k →
      List.zipWith (fun v mb => v * boolToQ mb) r (List.replicate k true) = r := by
  induction r with
  | nil => intro k _; simp
  | cons v vs ih =>
    intro k hk
    cases k with
    | zero => simp at hk
    | succ n =>
      rw [List.replicate_succ]
      simp only [List.zipWith_cons_cons]
      rw [ih n (by simpa using hk)]
      simp [boolToQ]

theorem mask2_allTrue (k : ℕ) (l : List (List ℚ)) :
    ∀ n, l.length = n → (∀ r ∈ l, r.length ≤ k) →
      List.zipWith (fun iv mv => List.zipWith (fun v mb => v * boolToQ mb) iv mv) l
        (List.replicate n (List.replicate k true)) = l := by
  induction l with
  | nil => intro n _ _; simp
  | cons r rs ih =>
    intro n hn hk
    cases n with
    | zero => simp at hn
    | succ m =>
      rw [List.replicate_succ]
      simp only [List.zipWith_cons_cons]
      rw [zipMul_replicate_true r k (hk r (List.mem_cons_self r rs)),
        ih m (by simpa using hn) (fun a ha => hk a (List.mem_cons_of_mem r ha))]

theorem zipVMul_replicate_true (vs : List (List ℚ)) :
    ∀ k, vs.length ≤ k →
      List.zipWith (fun v mb => v.map (fun z => z * boolToQ mb)) vs
        (List.replicate k true) = vs := by
  induction vs with
  | nil => intro k _; simp
  | cons v t ih =>
    intro k hk
    cases k with
    | zero => simp at hk
    | succ n =>
      rw [List.replicate_succ]
      simp only [List.zipWith_cons_cons]
      rw [ih n (by simpa using hk)]
      simp [boolToQ]

theorem mask3_allTrue (k : ℕ) (l : List (List (List ℚ))) :
    ∀ n, l.length = n → (∀ row ∈ l, row.length ≤ k) →
      List.zipWith (fun row mrow =>
          List.zipWith (fun v mb => v.map (fun z => z * boolToQ mb)) row mrow) l
        (List.replicate n (List.replicate k true)) = l := by
  induction l with
  | nil => intro n _ _; simp
  | cons r rs ih =>
    intro n hn hk
    cases n with
    | zero => simp at hn
    | succ m =>
      rw [List.replicate_succ]
      simp only [List.zipWith_cons_cons]
      rw [zipVMul_replicate_true r k (hk r (List.mem_cons_self r rs)),
        ih m (by simpa using hn) (fun a ha => hk a (List.mem_cons_of_mem r ha))]

theorem zipMul_replicate_false (r : List ℚ) :
    ∀ k z, z ∈ List.zipWith (fun v mb => v * boolToQ mb) r (List.replicate k false) →
      z = 0 := by
  induction r with
  | nil => intro k z hz; simp at hz
  | cons v vs ih =>
    intro k z hz
    cases k with
    | zero => simp at hz
    | succ n =>
      rw [List.replicate_succ] at hz
      simp only [List.zipWith_cons_cons, List.mem_cons] at hz
      rcases hz with rfl | hz
      · simp [boolToQ]
      · exact ih n z hz

theorem mask2_allFalse_zero (l : List (List ℚ)) :
    ∀ n k mr,
      mr ∈ List.zipWith (fun iv mv => List.zipWith (fun v mb => v * boolToQ mb) iv mv) l
        (List.replicate n (List.replicate k false)) →
      ∀ z ∈ mr, z = 0 := by
  induction l with
  | nil => intro n k mr h; simp at h
  | cons r rs ih =>
    intro n k mr h
    cases n with
    | zero => simp at h
    | succ m =>
      rw [List.replicate_succ] at h
      simp only [List.zipWith_cons_cons, List.mem_cons] at h
      rcases h with rfl | h
      · exact fun z hz => zipMul_replicate_false r k z hz
      · exact ih m k mr h

theorem zipVMul_replicate_false (vs : List (List ℚ)) :
    ∀ k v,
      v ∈ List.zipWith (fun v mb => v.map (fun z => z * boolToQ mb)) vs
        (List.replicate k false) →
      ∀ z ∈ v, z = 0 := by
  induction vs with
  | nil => intro k v hv; simp at hv
  | cons w t ih =>
    intro k v hv
    cases k with
    | zero => simp at hv
    | succ n =>
      rw [List.replicate_succ] at hv
      simp only [List.zipWith_cons_cons, List.mem_cons] at hv
      rcases hv with rfl | hv
      · intro z hz
        obtain ⟨a, _, rfl⟩ := List.mem_map.mp hz
        simp [boolToQ]
      · exact ih n v hv

theorem mask3_allFalse_zero (l : List (List (List ℚ))) :
    ∀ n k row,
      row ∈ List.zipWith (fun row mrow =>
          List.zipWith (fun v mb => v.map (fun z => z * boolToQ mb)) row mrow) l
        (List.replicate n (List.replicate k false)) →
      ∀ v ∈ row, ∀ z ∈ v, z = 0 := by
  induction l with
  | nil => intro n k row h; simp at h
  | cons r rs ih =>
    intro n k row h
    cases n with
    | zero => simp at h
    | succ m =>
      rw [List.replicate_succ] at h
      simp only [List.zipWith_cons_cons, List.mem_cons] at h
      rcases h with rfl | h
      · exact fun v hv => zipVMul_replicate_false r k v hv
      · exact ih m k row h

theorem dotQ_zero {r : List ℚ} (h : ∀ z ∈ r, z = 0) (c : List ℚ) : dotQ r c = 0 := by
  unfold dotQ
  apply List.sum_eq_zero
  intro x hx
  obtain ⟨⟨a, b⟩, hp, rfl⟩ := List.mem_map.mp hx
  have ha : a ∈ r := (List.of_mem_zip hp).1
  simp [h a ha]

theorem getD_zero_of_all_zero {v : List ℚ} (h : ∀ z ∈ v, z = 0) :
    ∀ j, v.getD j 0 = 0 := by
  induction v with
  | nil => intro j; simp
  | cons a t ih =>
    intro j
    cases j with
    | zero => simpa using h a (List.mem_cons_self a t)
    | succ m =>
      simpa using ih (fun z hz => h z (List.mem_cons_of_mem a hz)) m

theorem colSum_zero {vs : List (List ℚ)} (h : ∀ v ∈ vs, ∀ z ∈ v, z = 0) (d : ℕ) :
    colSum d vs = List.replicate d 0 := by
  unfold colSum
  have h1 : ∀ j ∈ List.range d, (vs.map (fun v => v.getD j 0)).sum = 0 := by
    intro j _
    apply List.sum_eq_zero
    intro x hx
    obtain ⟨v, hv, rfl⟩ := List.mem_map.mp hx
    exact getD_zero_of_all_zero (h v hv) j
  rw [show (List.range d).map (fun j => (vs.map (fun v => v.getD j 0)).sum)
      = (List.range d).map (fun _ => (0 : ℚ)) from List.map_congr_left h1,
    List.map_const', List.length_range]

theorem zipAdd_replicate_zero (l : List ℚ) :
    ∀ n, l.length = n → List.zipWith (· + ·) (List.replicate n (0 : ℚ)) l = l := by
  induction l with
  | nil => intro n _; simp
  | cons a t ih =>
    intro n h
    cases n with
    | zero => simp at h
    | succ m =>
      rw [List.replicate_succ]
      simp only [List.zipWith_cons_cons, zero_add]
      rw [ih m (by simpa using h)]

/-- C6: for both the rank-1 and the full-rank parameter-component layers,
the forward pass with an all-True mask of width k equals the forward pass
with no mask at all — same layer output and same inner activations. -/
theorem c6_all_true_mask_identity (A B x : Mat) (k : ℕ)
    (hA : (A.headD []).length ≤ k)
    (W : List Mat) (bias : Option Mat) (d_out : ℕ) (y : Mat) :
    ParamComponents.forward A B x (some (allTrueMask x.length k))
      = ParamComponents.forward A B x none
    ∧ ParamComponentsFullRank.forward W bias d_out y
        (some (allTrueMask y.length W.length))
      = ParamComponentsFullRank.forward W bias d_out y none := by
  constructor
  · have hrows : ∀ r ∈ matMulQ x A, r.length ≤ k := by
      intro r hr
      obtain ⟨xb, _, rfl⟩ := List.mem_map.mp hr
      simpa using hA
    have hmask := mask2_allTrue k (matMulQ x A) x.length (by simp [matMulQ]) hrows
    simp only [ParamComponents.forward]
    unfold allTrueMask
    rw [hmask]
  · cases bias with
    | none =>
      have hrows : ∀ row ∈ y.map (fun xb => W.map (fun Wk => vecMatQ xb Wk)),
          row.length ≤ W.length := by
        intro row hrow
        obtain ⟨xb, _, rfl⟩ := List.mem_map.mp hrow
        simp
      have hmask := mask3_allTrue W.length (y.map (fun xb => W.map (fun Wk => vecMatQ xb Wk)))
        y.length (by simp) hrows
      simp only [ParamComponentsFullRank.forward]
      unfold allTrueMask
      rw [hmask]
    | some bs =>
      have hrows : ∀ row ∈ (y.map (fun xb => W.map (fun Wk => vecMatQ xb Wk))).map
          (fun row => List.zipWith (fun v bv => List.zipWith (· + ·) v bv) row bs),
          row.length ≤ W.length := by
        intro row hrow
        obtain ⟨row0, hrow0, rfl⟩ := List.mem_map.mp hrow
        obtain ⟨xb, _, rfl⟩ := List.mem_map.mp hrow0
        simp only [List.length_zipWith, List.length_map]
        exact min_le_left _ _
      have hmask := mask3_allTrue W.length
        ((y.map (fun xb => W.map (fun Wk => vecMatQ xb Wk))).map
          (fun row => List.zipWith (fun v bv => List.zipWith (· + ·) v bv) row bs))
        y.length (by simp) hrows
      simp only [ParamComponentsFullRank.forward]
      unfold allTrueMask
      rw [hmask]

/-- Witness for C6 at concrete layers (rank-1: d_in = k = 2; full-rank:
k = 1 with a bias). -/
theorem c6_witness :
    ParamComponents.forward [[1, 2], [3, 4]] [[5], [6]] [[1, 2]]
        (some (allTrueMask ([[(1 : ℚ), 2]] : Mat).length 2))
      = ParamComponents.forward [[1, 2], [3, 4]] [[5], [6]] [[1, 2]] none
    ∧ ParamComponentsFullRank.forward [[[1]]] (some [[5]]) 1 [[2]]
        (some (allTrueMask ([[(2 : ℚ)]] : Mat).length ([[[(1 : ℚ)]]] : List Mat).length))
      = ParamComponentsFullRank.forward [[[1]]] (some [[5]]) 1 [[2]] none :=
  c6_all_true_mask_identity [[1, 2], [3, 4]] [[5], [6]] [[1, 2]] 2 (by decide)
    [[[1]]] (some [[5]]) 1 [[2]]

/-- C3 (amended): with the all-False mask the rank-1 MLPComponents layer's
first layer activation equals bias1 alone (its bias is added after the
masked linear pass), while ParamComponentsFullRank returns an all-zero
layer output — its per-subnetwork bias is added to inner_acts before the
mask multiplies, so the bias is masked away together with the weights.
Neither forward pass raises (both are total). -/
theorem c3_all_false_mask_bias (A1 B1 A2 B2 : Mat) (bias1 : List ℚ) (x : Mat) (k : ℕ)
    (hlen : bias1.length = (B1.headD []).length)
    (W : List Mat) (bias : Option Mat) (d_out : ℕ) (y : Mat) :
    (MLPComponents.forward A1 B1 A2 B2 bias1 x
        (some (allFalseMask x.length k))).2.1.headD []
      = x.map (fun _ => bias1)
    ∧ (ParamComponentsFullRank.forward W bias d_out y
        (some (allFalseMask y.length W.length))).1
      = y.map (fun _ => List.replicate d_out 0) := by
  constructor
  · have hz := mask2_allFalse_zero (matMulQ x A1) x.length k
    have hrow : ∀ r ∈ matMulQ (List.zipWith
          (fun iv mv => List.zipWith (fun v mb => v * boolToQ mb) iv mv)
          (matMulQ x A1) (List.replicate x.length (List.replicate k false))) B1,
        r = List.replicate (B1.headD []).length 0 := by
      intro r hr
      unfold matMulQ at hr
      obtain ⟨mr, hmr, rfl⟩ := List.mem_map.mp hr
      rw [show (List.range (B1.headD []).length).map (fun j => dotQ mr (colQ B1 j))
            = (List.range (B1.headD []).length).map (fun _ => (0 : ℚ)) from
          List.map_congr_left (fun j _ => dotQ_zero (hz mr hmr) (colQ B1 j)),
        List.map_const', List.length_range]
    have hall : ∀ b ∈ (matMulQ (List.zipWith
          (fun iv mv => List.zipWith (fun v mb => v * boolToQ mb) iv mv)
          (matMulQ x A1) (List.replicate x.length (List.replicate k false))) B1).map
          (fun r => List.zipWith (· + ·) r bias1),
        b = bias1 := by
      intro b hb
      obtain ⟨r, hr, rfl⟩ := List.mem_map.mp hb
      rw [hrow r hr]
      exact zipAdd_replicate_zero bias1 _ hlen
    have hlenL : ((matMulQ (List.zipWith
          (fun iv mv => List.zipWith (fun v mb => v * boolToQ mb) iv mv)
          (matMulQ x A1) (List.replicate x.length (List.replicate k false))) B1).map
          (fun r => List.zipWith (· + ·) r bias1)).length = x.length := by
      unfold matMulQ
      simp [List.length_zipWith]
    have h1 := List.eq_replicate_iff.mpr ⟨hlenL, hall⟩
    simp only [MLPComponents.forward, ParamComponents.forward, List.headD_cons]
    unfold allFalseMask
    rw [h1, List.map_const']
  · cases bias with
    | none =>
      have hz3 := mask3_allFalse_zero (y.map (fun xb => W.map (fun Wk => vecMatQ xb Wk)))
        y.length W.length
      have hall : ∀ r ∈ (List.zipWith (fun row mrow =>
            List.zipWith (fun v mb => v.map (fun z => z * boolToQ mb)) row mrow)
            (y.map (fun xb => W.map (fun Wk => vecMatQ xb Wk)))
            (List.replicate y.length (List.replicate W.length false))).map
            (fun row => colSum d_out row),
          r = List.replicate d_out 0 := by
        intro r hr
        obtain ⟨row, hrow, rfl⟩ := List.mem_map.mp hr
        exact colSum_zero (hz3 row hrow) d_out
      have hlenL : ((List.zipWith (fun row mrow =>
            List.zipWith (fun v mb => v.map (fun z => z * boolToQ mb)) row mrow)
            (y.map (fun xb => W.map (fun Wk => vecMatQ xb Wk)))
            (List.replicate y.length (List.replicate W.length false))).map
            (fun row => colSum d_out row)).length = y.length := by
        simp [List.length_zipWith]
      have h1 := List.eq_replicate_iff.mpr ⟨hlenL, hall⟩
      simp only [ParamComponentsFullRank.forward]
      unfold allFalseMask
      rw [h1, List.map_const']
    | some bs =>
      have hz3 := mask3_allFalse_zero ((y.map (fun xb => W.map (fun Wk => vecMatQ xb Wk))).map
        (fun row => List.zipWith (fun v bv => List.zipWith (· + ·) v bv) row bs))
        y.length W.length
      have hall : ∀ r ∈ (List.zipWith (fun row mrow =>
            List.zipWith (fun v mb => v.map (fun z => z * boolToQ mb)) row mrow)
            ((y.map (fun xb => W.map (fun Wk => vecMatQ xb Wk))).map
              (fun row => List.zipWith (fun v bv => List.zipWith (· + ·) v bv) row bs))
            (List.replicate y.length (List.replicate W.length false))).map
            (fun row => colSum d_out row),
          r = List.replicate d_out 0 := by
        intro r hr
        obtain ⟨row, hrow, rfl⟩ := List.mem_map.mp hr
        exact colSum_zero (hz3 row hrow) d_out
      have hlenL : ((List.zipWith (fun row mrow =>
            List.zipWith (fun v mb => v.map (fun z => z * boolToQ mb)) row mrow)
            ((y.map (fun xb => W.map (fun Wk => vecMatQ xb Wk))).map
              (fun row => List.zipWith (fun v bv => List.zipWith (· + ·) v bv) row bs))
            (List.replicate y.length (List.replicate W.length false))).map
            (fun row => colSum d_out row)).length = y.length := by
        simp [List.length_zipWith]
      have h1 := List.eq_replicate_iff.mpr ⟨hlenL, hall⟩
      simp only [ParamComponentsFullRank.forward]
      unfold allFalseMask
      rw [h1, List.map_const']

/-- C3 counterexample: a full-rank layer with one subnetwork, weight [[1]],
bias [[5]] and input [[1]] under the all-False mask outputs [[0]], not the
bias alone [[5]] — the claim "layer output equals the bias term alone"
fails for ParamComponentsFullRank because the bias is masked too. -/
theorem c3_counterexample :
    (ParamComponentsFullRank.forward [[[1]]] (some [[5]]) 1 [[1]]
        (some (allFalseMask 1 1))).1 = [[0]]
    ∧ (ParamComponentsFullRank.forward [[[1]]] (some [[5]]) 1 [[1]]
        (some (allFalseMask 1 1))).1 ≠ [[5]] := by
  constructor <;>
    norm_num [ParamComponentsFullRank.forward, vecMatQ, dotQ, colQ, colSum, allFalseMask,
      boolToQ, List.range_succ, List.replicate_succ]

/-- Witness for C3 at concrete layers: the MLPComponents first-layer
activation is bias1 = [7] alone, and the full-rank output is all zeros. -/
theorem c3_witness :
    (MLPComponents.forward [[1, 1]] [[1], [1]] [[1]] [[1, 1]] [7] [[2]]
        (some (allFalseMask ([[(2 : ℚ)]] : Mat).length 2))).2.1.headD []
      = ([[(2 : ℚ)]] : Mat).map (fun _ => [7])
    ∧ (ParamComponentsFullRank.forward [[[1]]] (some [[5]]) 1 [[1]]
        (some (allFalseMask ([[(1 : ℚ)]] : Mat).length ([[[(1 : ℚ)]]] : List Mat).length))).1
      = ([[(1 : ℚ)]] : Mat).map (fun _ => List.replicate 1 0) :=
  c3_all_false_mask_bias [[1, 1]] [[1], [1]] [[1]] [[1, 1]] [7] [[2]] 2 (by decide)
    [[[1]]] (some [[5]]) 1 [[1]]
